import Mathlib

/-!
Verification development for the `credential_auditor` core of the
Senpai-Sama7/check-please repository.

The Python sources are shallowly embedded: Python strings are modelled as
lists of characters (`Str`), dictionaries as association lists with
overwrite-on-insert semantics, `time.monotonic()` instants as natural
numbers supplied explicitly, floats (latencies) as rationals, and fallible
operations (exceptions) as `Except` values.  Each definition carries a
comment naming the source function it embeds.
-/

set_option maxHeartbeats 1000000

/-- Python `str` values, modelled as lists of characters. -/
abbrev Str : Type := List Char

/-- Convert a Lean string literal to the model type. -/
def strOf (s : String) : Str := s.toList

/-- Python `str.upper()` (ASCII portion, which is all the source uses). -/
def upperStr (s : Str) : Str := s.map Char.toUpper

/-- Python `a in b` substring test on strings:
`s` occurs contiguously inside `t`. -/
def substrOf (s t : Str) : Bool :=
  (List.range (t.length + 1)).any fun i => decide ((t.drop i).take s.length = s)

/-- Lexicographic comparison of strings by code point, Python `<`. -/
def strLt : Str → Str → Bool
  | [], [] => false
  | [], _ :: _ => true
  | _ :: _, [] => false
  | a :: s, b :: t => if a = b then strLt s t else decide (a.toNat < b.toNat)

/-- Python tuple comparison `(p1, e1) < (p2, e2)` as used by
`results.sort(key=lambda r: (r.provider, r.env_var))`: `≤` on pairs. -/
def pairLe (x y : Str × Str) : Bool :=
  strLt x.1 y.1 || (decide (x.1 = y.1) && (strLt x.2 y.2 || decide (x.2 = y.2)))

/-- Render a natural number the way Python interpolates an `int`. -/
def natStr (n : Nat) : Str := (Nat.repr n).toList

/- ### Association lists: the model of Python `dict`
Keys are unique in every state reachable from the states the Python code
builds (a Python `dict` cannot hold a key twice); `insertA` overwrites in
place like `d[k] = v`, `eraseA` is `del d[k]` / `d.pop(k, None)`. -/

/-- `d.get(k)` / `d[k]`: first binding of `k`. -/
def lookupA {α : Type} : List (Str × α) → Str → Option α
  | [], _ => none
  | p :: t, k => if p.1 = k then some p.2 else lookupA t k

/-- `k in d`. -/
def containsA {α : Type} (l : List (Str × α)) (k : Str) : Bool :=
  (lookupA l k).isSome

/-- `d[k] = v`: replace the binding in place if present (a Python dict
keeps the original position on update), otherwise append. -/
def insertA {α : Type} (l : List (Str × α)) (k : Str) (v : α) : List (Str × α) :=
  if containsA l k then l.map (fun p => if p.1 = k then (k, v) else p)
  else l ++ [(k, v)]

/-- `del d[k]` / `d.pop(k, None)` on a unique-key association list. -/
def eraseA {α : Type} (l : List (Str × α)) (k : Str) : List (Str × α) :=
  l.filter (fun p => ¬ p.1 = k)

/-- `s.add(x)` for a Python `set` modelled as a duplicate-free list
(insertion order retained; length = cardinality). -/
def insertNew (l : List Str) (x : Str) : List Str :=
  if x ∈ l then l else l ++ [x]

/- ### `credential_auditor/models.py` -/

/-- `Status` literal type from `models.py`: the closed set of seven
validation outcomes. -/
inductive Status : Type
  | valid
  | invalid_format
  | auth_failed
  | suspended_account
  | quota_exhausted
  | insufficient_scope
  | network_error
deriving DecidableEq

/-- The serialized string of each status (the Python values are these
strings themselves). -/
def statusStr : Status → Str
  | .valid => strOf "valid"
  | .invalid_format => strOf "invalid_format"
  | .auth_failed => strOf "auth_failed"
  | .suspended_account => strOf "suspended_account"
  | .quota_exhausted => strOf "quota_exhausted"
  | .insufficient_scope => strOf "insufficient_scope"
  | .network_error => strOf "network_error"

/-- `FAILING_STATUSES` from `models.py` (drives the circuit breaker). -/
def failingStatus : Status → Bool
  | .auth_failed => true
  | .suspended_account => true
  | .quota_exhausted => true
  | .insufficient_scope => true
  | _ => false

/-- `KeyFingerprint` dataclass: the only stored representation of a
secret.  Source field names are `prefix` / `suffix`; the first is renamed
`pfx` here because `pre fix` is a reserved word in Lean. -/
structure KeyFingerprint where
  pfx : Str
  suffix : Str
  length : Nat
deriving DecidableEq

/-- `KeyFingerprint.from_key`: Python `key[:4] if len(key) >= 4 else key`
and `key[-4:] if len(key) >= 4 else ""`. -/
def fingerprintFromKey (key : Str) : KeyFingerprint :=
  { pfx := if key.length ≥ 4 then key.take 4 else key
    suffix := if key.length ≥ 4 then key.drop (key.length - 4) else []
    length := key.length }

/-- `RateLimitInfo` dataclass. -/
structure RateLimitInfo where
  limit : Int
  remaining : Int
  reset_ts : Int
deriving DecidableEq

/-- `KeyResult` dataclass from `models.py`.

The `autoDetected` field is not declared on the dataclass in `models.py`;
it is nevertheless written by the orchestrator
(`replace(result, auto_detected=True)`) and asserted by the repository's
own test suite (`test_canonical_field_order`), so the record carries it
here with the dataclass-style default `false`.  `keyResultToDict` below
stays faithful to `models.py` and does NOT serialize it — that divergence
is the subject of claim C2. -/
structure KeyResult where
  provider : Str
  env_var : Str
  key_fingerprint : KeyFingerprint
  status : Status
  account_info : Option Str := none
  scopes : Option (List Str) := none
  rate_limit : Option RateLimitInfo := none
  usage_stats : Option (List (Str × Str)) := none
  latency_ms : ℚ := 0
  error_detail : Option Str := none
  autoDetected : Bool := false
deriving DecidableEq

/-- JSON-like values: the codomain of the `to_dict` serializers.
A Python `dict` is an ordered association list, so field order is
observable here exactly as it is in the source. -/
inductive JVal : Type
  | jnull
  | jstr (s : Str)
  | jint (n : Int)
  | jnum (q : ℚ)
  | jlist (vs : List Str)
  | jobj (fields : List (Str × JVal))

/-- Python `round(x, 2)` on the modelled rationals (round-half-to-even as
Python does on a decimal boundary is irrelevant to the claims, which only
inspect keys; plain rounding is used). -/
def round2 (q : ℚ) : ℚ := (round (q * 100) : ℤ) / 100

/-- `KeyFingerprint.to_dict`. -/
def fingerprintToDict (fp : KeyFingerprint) : List (Str × JVal) :=
  [ (strOf "prefix", .jstr fp.pfx)
  , (strOf "suffix", .jstr fp.suffix)
  , (strOf "length", .jint fp.length) ]

/-- `RateLimitInfo.to_dict`. -/
def rateLimitToDict (rl : RateLimitInfo) : List (Str × JVal) :=
  [ (strOf "limit", .jint rl.limit)
  , (strOf "remaining", .jint rl.remaining)
  , (strOf "reset_ts", .jint rl.reset_ts) ]

/-- Serialize an optional string field, `None` → JSON null. -/
def joptStr : Option Str → JVal
  | none => .jnull
  | some s => .jstr s

/-- `KeyResult.to_dict` from `models.py`, field for field and in source
order.  Note: the source emits exactly these ten keys; it does not emit
`auto_detected`. -/
def keyResultToDict (r : KeyResult) : List (Str × JVal) :=
  [ (strOf "provider", .jstr r.provider)
  , (strOf "env_var", .jstr r.env_var)
  , (strOf "key_fingerprint", .jobj (fingerprintToDict r.key_fingerprint))
  , (strOf "status", .jstr (statusStr r.status))
  , (strOf "account_info", joptStr r.account_info)
  , (strOf "scopes", match r.scopes with
      | none => .jnull
      | some l => .jlist l)
  , (strOf "rate_limit", match r.rate_limit with
      | none => .jnull
      | some rl => .jobj (rateLimitToDict rl))
  , (strOf "usage_stats", match r.usage_stats with
      | none => .jnull
      | some u => .jobj (u.map (fun p => (p.1, JVal.jstr p.2))))
  , (strOf "latency_ms", .jnum (round2 r.latency_ms))
  , (strOf "error_detail", joptStr r.error_detail) ]

/-- `AuditSummary` dataclass. -/
structure AuditSummary where
  total_keys : Nat
  valid : Nat
  failed : Nat
  errors : Nat
  providers_checked : Nat
  providers_skipped : Nat
  cache_hits : Nat
  cache_misses : Nat
  total_latency_ms : ℚ
  auto_detected : Nat
deriving DecidableEq

/- ### `credential_auditor/cache.py` -/

/-- `CacheStats` dataclass. -/
structure CacheStats where
  hits : Nat
  misses : Nat
deriving DecidableEq

/-- `ValidationCache` state.  `store` maps the cache key to
`(result, inserted_at)`; instants are the modelled `time.monotonic()`
clock (natural numbers, monotone across a process). -/
structure Cache where
  ttl : Nat
  maxSize : Nat
  store : List (Str × (KeyResult × Nat))
  stats : CacheStats
deriving DecidableEq

/-- `_cache_key(provider, key)`: the source hashes
`f"{provider}:{key}"` with SHA-256 and keeps 16 hex characters.  The
claims depend only on the digest being a deterministic function of
`(provider, key)`; the digest step is modelled as the identity on the
encoded string (the encoding is injective, the truncated hash is
collision-resistant by assumption of the source). -/
def cacheKeyS (provider key : Str) : Str := provider ++ strOf ":" ++ key

/-- `ValidationCache.get`.  `now` is the `time.monotonic()` reading taken
inside the call.  Returns the Python return value and the updated cache
(the Python method mutates `self`). -/
def cacheGet (c : Cache) (now : Nat) (provider key : Str) :
    Option KeyResult × Cache :=
  match lookupA c.store (cacheKeyS provider key) with
  | some entry =>
      if now - entry.2 < c.ttl then
        (some entry.1, { c with stats := { c.stats with hits := c.stats.hits + 1 } })
      else
        (none, { c with store := eraseA c.store (cacheKeyS provider key),
                        stats := { c.stats with misses := c.stats.misses + 1 } })
  | none =>
      (none, { c with stats := { c.stats with misses := c.stats.misses + 1 } })

/-- Evict the single oldest entry by insertion timestamp:
Python `min(self._store, key=lambda k: self._store[k][1])` returns the
first key (in insertion order) attaining the minimal timestamp. -/
def eraseOldest (l : List (Str × (KeyResult × Nat))) :
    List (Str × (KeyResult × Nat)) :=
  match l.argmin (fun p => p.2.2) with
  | some oldest => eraseA l oldest.1
  | none => l

/-- `ValidationCache.put`. -/
def cachePut (c : Cache) (now : Nat) (provider key : Str) (r : KeyResult) :
    Cache :=
  let store₁ := if c.store.length ≥ c.maxSize then eraseOldest c.store else c.store
  { c with store := insertA store₁ (cacheKeyS provider key) (r, now) }

/- ### `credential_auditor/audit_log.py` -/

/-- The buffered audit events of one run (`AuditLog.log` appends one
entry per call; the timestamp and the conditional omission of empty
fields inside `log` do not matter to any claim and are not modelled). -/
inductive Ev : Type
  | auditStart (detail : Str)
  | autoDetectEv (provider env_var : Str)
  | cacheHitEv (provider env_var : Str) (status : Status)
  | validateEv (provider env_var : Str) (status : Status) (latency_ms : ℚ)
  | providerBail (provider : Str) (detail : Str)
  | auditEnd (detail : Str)
deriving DecidableEq

/-- `AuditLog.MAX_SIZE = 10 * 1024 * 1024`. -/
def LOG_MAX_SIZE : Nat := 10 * 1024 * 1024

/-- The possible I/O failures of `AuditLog.flush`; each constructor names
the `Path` operation in the source that can raise `OSError`. -/
inductive FlushErr : Type
  | mkdirFailed
  | unlinkFailed
  | renameFailed
  | openFailed
  | writeFailed
deriving DecidableEq

/-- Abstract state of the file system as seen by one `flush` call: for
each primitive the source invokes, whether it succeeds, plus the
observations (`is_symlink`, `exists`, `stat().st_size`) the source
branches on. -/
structure FS where
  isSymlink : Bool
  mkdirOk : Bool
  pathExists : Bool
  size : Nat
  rotatedExists : Bool
  unlinkOk : Bool
  renameOk : Bool
  openOk : Bool
  writeOk : Bool
deriving DecidableEq

/-- Result of a successful `flush`: the remaining buffer, the lines
appended to the file, and whether a rotation happened. -/
structure FlushOut (α : Type) where
  remaining : List α
  wrote : List α
  rotated : Bool
deriving DecidableEq

/-- `AuditLog.flush`, line for line.  A Python exception raised by a
`Path` operation is an `Except.error`; the source contains no handler
around any of them, so an error propagates to the caller (the
orchestrator calls `flush` with no handler either). -/
def flushM {α : Type} (entries : List α) (fs : FS) :
    Except FlushErr (FlushOut α) :=
  if entries.isEmpty then .ok { remaining := entries, wrote := [], rotated := false }
  else if fs.isSymlink then .ok { remaining := [], wrote := [], rotated := false }
  else if !fs.mkdirOk then .error .mkdirFailed
  else if fs.pathExists && decide (LOG_MAX_SIZE < fs.size) then
    if fs.rotatedExists && !fs.unlinkOk then .error .unlinkFailed
    else if !fs.renameOk then .error .renameFailed
    else if !fs.openOk then .error .openFailed
    else if !fs.writeOk then .error .writeFailed
    else .ok { remaining := [], wrote := entries, rotated := true }
  else if !fs.openOk then .error .openFailed
  else if !fs.writeOk then .error .writeFailed
  else .ok { remaining := [], wrote := entries, rotated := false }

/- ### `credential_auditor/providers/__init__.py`: the provider contract -/

/-- A Python exception value as observed by the handlers in the source:
its type name and its message (`f"{type(exc).__name__}: {exc}"`). -/
structure ExcInfo where
  excName : Str
  msg : Str
deriving DecidableEq

/-- The tuple returned by a successful `Provider.validate`. -/
structure ValidateOk where
  status : Status
  account_info : Option Str := none
  scopes : Option (List Str) := none
  rate_limit : Option RateLimitInfo := none
  usage_stats : Option (List (Str × Str)) := none
  error_detail : Option Str := none
deriving DecidableEq

/-- A provider instance as `Provider.check_key` consumes it: its
registered name, its key-syntax check (`self.key_format.match`), and its
network-side `validate`, which either returns the result tuple or raises
(the shared HTTP client is folded into the `validate` function; its
latency is supplied as the measured wall-clock value `lat`). -/
structure ProviderIO where
  name : Str
  keyFormatOk : Str → Bool
  validate : Str → Except ExcInfo ValidateOk

/-- `Provider.check_format`: `(ok, error_msg)` exactly as in the source. -/
def checkFormat (P : ProviderIO) (key : Str) : Bool × Option Str :=
  if P.keyFormatOk key then (true, none)
  else (false, some (strOf "Key does not match expected " ++ P.name ++ strOf " format"))

/-- Return value of the instrumented `check_key`: the `KeyResult` plus
how many times `validate` was entered (hence whether any network request
could have been issued). -/
structure CheckOut where
  result : KeyResult
  validateCalls : Nat
deriving DecidableEq

/-- `Provider.check_key`, line for line.  `lat` is the measured
`(time.monotonic() - start) * 1000` of the `validate` call.  The source's
`except (httpx.HTTPError, OSError, Exception)` clause catches every
`Exception`; exceptions are modelled by `validate` returning
`Except.error`, so this function is total: `check_key` never raises. -/
def checkKey (P : ProviderIO) (env_var key : Str) (lat : ℚ) : CheckOut :=
  let fingerprint := fingerprintFromKey key
  match checkFormat P key with
  | (false, fmt_err) =>
      { result := { provider := P.name, env_var := env_var,
                    key_fingerprint := fingerprint,
                    status := .invalid_format, error_detail := fmt_err }
        validateCalls := 0 }
  | (true, _) =>
      match P.validate key with
      | .error exc =>
          { result := { provider := P.name, env_var := env_var,
                        key_fingerprint := fingerprint,
                        status := .network_error, latency_ms := lat,
                        error_detail :=
                          some (exc.excName ++ strOf ": " ++ exc.msg) }
            validateCalls := 1 }
      | .ok v =>
          { result := { provider := P.name, env_var := env_var,
                        key_fingerprint := fingerprint,
                        status := v.status, account_info := v.account_info,
                        scopes := v.scopes, rate_limit := v.rate_limit,
                        usage_stats := v.usage_stats, latency_ms := lat,
                        error_detail := v.error_detail }
            validateCalls := 1 }

/- ### Concrete provider adapters (matching layer)
`matches_env_var` and `key_format.match` of the adapters used by the
witnesses below, translated from the regexes in
`providers/openai_p.py` and `providers/anthropic_p.py`. -/

/-- The character class `[A-Za-z0-9_-]` shared by both key regexes. -/
def inKeyClass (c : Char) : Bool :=
  c.isAlphanum || c = '_' || c = '-'

/-- `openai.key_format = ^sk-[A-Za-z0-9_-]\x7b20,\x7d(_ALT\d+)?$`.
Because `_`, letters and digits all lie in the repeated class, the
optional `(_ALT\d+)?` tail adds no strings beyond the class repetition:
the regex's language is exactly `"sk-"` followed by 20 or more class
characters, which is what is implemented here. -/
def openaiKeyFormat (s : Str) : Bool :=
  decide (s.take 3 = strOf "sk-") &&
    (decide ((s.drop 3).length ≥ 20) && (s.drop 3).all inKeyClass)

/-- `anthropic.key_format = ^sk-ant-[A-Za-z0-9_-]\x7b20,\x7d(_ALT\d+)?$`,
same absorption argument as for `openaiKeyFormat`. -/
def anthropicKeyFormat (s : Str) : Bool :=
  decide (s.take 7 = strOf "sk-ant-") &&
    (decide ((s.drop 7).length ≥ 20) && (s.drop 7).all inKeyClass)

/-- Shared shape of the env-var regexes `^BASE(_ALT\d+)?$`: the name is
the base itself, or the base, `_ALT`, and at least one digit. -/
def envAltMatch (base s : Str) : Bool :=
  decide (s = base) ||
    (decide (s.take (base.length + 4) = base ++ strOf "_ALT") &&
      (decide ((s.drop (base.length + 4)).length ≥ 1) &&
        (s.drop (base.length + 4)).all Char.isDigit))

/-- The slice of a `Provider` instance the orchestrator's matching,
auto-detection and dispatch bookkeeping consume: `name`,
`matches_env_var` (anchored match against `env_patterns`), the compiled
`key_format` match, and the `key_format` pattern text (scanned by the
specificity heuristic). -/
structure ProviderM where
  name : Str
  matchesEnvVar : Str → Bool
  keyFormat : Str → Bool
  keyFormatText : Str

/-- `OpenAIProvider` matching data (`env_patterns =
[^OPENAI_API_KEY(_ALT\d+)?$]`). -/
def openaiM : ProviderM :=
  { name := strOf "openai"
    matchesEnvVar := envAltMatch (strOf "OPENAI_API_KEY")
    keyFormat := openaiKeyFormat
    keyFormatText := strOf "^sk-[A-Za-z0-9_-]\x7b20,\x7d(_ALT\\d+)?$" }

/-- `AnthropicProvider` matching data (`env_patterns =
[^ANTHROPIC_API_KEY(_ALT\d+)?$]`). -/
def anthropicM : ProviderM :=
  { name := strOf "anthropic"
    matchesEnvVar := envAltMatch (strOf "ANTHROPIC_API_KEY")
    keyFormat := anthropicKeyFormat
    keyFormatText := strOf "^sk-ant-[A-Za-z0-9_-]\x7b20,\x7d(_ALT\\d+)?$" }

/- ### Auto-detect engine -/

/-- The regex metacharacters the specificity scan stops at. -/
def regexMetaChars : List Char :=
  ['[', ']', '(', ')', '?', '*', '+', '.', '|', '^', '$', '\\',
   Char.ofNat 123, Char.ofNat 125]

/-- Modelled from the spec: `_literal_prefix_len` is referenced by the
test suite (`tests/test_providers.py`) but its definition is missing from
`credential_auditor/providers/__init__.py` in this tree.  Per §4.3 and
the glossary, the specificity of a pattern is the length of the literal
(non-metacharacter) prefix immediately following the pattern's start
anchor; the tests pin `^sk-ant-` ↦ 7, `^ghp_[A-Za-z0-9]` ↦ 4,
`^[a-z]` ↦ 0 and `sk-` ↦ 3, all satisfied here. -/
def literalPrefixLen (pat : Str) : Nat :=
  let body := match pat with
    | '^' :: rest => rest
    | p => p
  (body.takeWhile (fun c => ¬ regexMetaChars.contains c)).length

/-- Modelled from the spec: `detect_provider_by_key` is imported by the
orchestrator and the tests but its definition is missing from
`credential_auditor/providers/__init__.py` in this tree.  Per §4.3:
among all providers whose key-syntax pattern matches the value, select
the one of greatest specificity, breaking specificity ties by lexical
order of provider name; return nothing when no pattern matches.  `detectPick` is the selection
step over one candidate: strictly greater specificity wins, an equal
specificity with a lexically smaller name wins, anything else keeps the
incumbent. -/
def detectPick (best : Option ProviderM) (p : ProviderM) : Option ProviderM :=
  match best with
  | none => some p
  | some b =>
      if literalPrefixLen p.keyFormatText > literalPrefixLen b.keyFormatText then
        some p
      else if decide (literalPrefixLen p.keyFormatText
                        = literalPrefixLen b.keyFormatText)
                && strLt p.name b.name then
        some p
      else some b

/-- Modelled from the spec (see `detectPick` above): among the providers
whose key-syntax pattern matches the value, fold the selection step,
starting from no candidate. -/
def detectProviderByKey (registry : List ProviderM) (value : Str) :
    Option ProviderM :=
  (registry.filter (fun p => p.keyFormat value)).foldl detectPick none

/- ### `credential_auditor/orchestrator.py` -/

/-- `_FAIL_BAIL_THRESHOLD` module constant. -/
def FAIL_BAIL_THRESHOLD : Nat := 3

/-- One entry of the orchestrator's `tasks` list: `(var, str(value), inst)`. -/
structure OTask where
  env_var : Str
  key : Str
  inst : ProviderM

/-- The outcome of one gathered `_throttled_check` task, as observed at
the `asyncio.gather(..., return_exceptions=True)` join: either the task's
`KeyResult` or the exception it raised.  The network, the shared client
and the semaphore scheduling are external, so the per-task outcomes enter
the model as this oracle; `gather` returns them in dispatch order, which
is the order the source's result loop consumes. -/
def Oracle : Type := Str → Str → Str → Except ExcInfo KeyResult

/-- The words barring a variable from the companion-env injection:
`("SECRET", "TOKEN", "PASSWORD", "KEY", "AUTH")`. -/
def blockedWords : List Str :=
  [strOf "SECRET", strOf "TOKEN", strOf "PASSWORD", strOf "KEY", strOf "AUTH"]

/-- One step of the injection loop (orchestrator lines 89-93): expose a
non-secret companion variable unless the process environment already has
it, tracking it for cleanup. -/
def injectStep (st : List (Str × Str) × List Str) (pair : Str × Str) :
    List (Str × Str) × List Str :=
  if ¬ pair.1.isEmpty ∧ ¬ pair.2.isEmpty ∧
      ¬ (blockedWords.any (fun w => substrOf w (upperStr pair.1))) then
    if containsA st.1 pair.1 then st
    else (insertA st.1 pair.1 pair.2, st.2 ++ [pair.1])
  else st

/-- The full injection phase (lines 88-97), including the unconditional
`TWILIO_ACCOUNT_SID` exposure.  Returns the updated `os.environ` and the
`_injected_env` cleanup list. -/
def injectEnv (envVars environ₀ : List (Str × Str)) :
    List (Str × Str) × List Str :=
  let st₁ := envVars.foldl injectStep (environ₀, [])
  match lookupA envVars (strOf "TWILIO_ACCOUNT_SID") with
  | some v =>
      if ¬ v.isEmpty then
        (insertA st₁.1 (strOf "TWILIO_ACCOUNT_SID") v,
         st₁.2 ++ [strOf "TWILIO_ACCOUNT_SID"])
      else st₁
  | none => st₁

/-- State threaded through the matching loop (lines 100-119). -/
structure MatchSt where
  tasks : List OTask
  autoVars : List Str
  autoCount : Nat
  events : List Ev

/-- One iteration of the matching loop: first active provider whose
`matches_env_var` accepts the name wins; otherwise fall back to
auto-detection, keeping the detected provider only if it is active. -/
def matchStep (active : List (Str × ProviderM)) (registry : List ProviderM)
    (st : MatchSt) (pair : Str × Str) : MatchSt :=
  if pair.1.isEmpty || pair.2.isEmpty then st
  else
    match active.find? (fun a => a.2.matchesEnvVar pair.1) with
    | some a => { st with tasks := st.tasks ++ [⟨pair.1, pair.2, a.2⟩] }
    | none =>
        match detectProviderByKey registry pair.2 with
        | some p =>
            if containsA active p.name then
              { st with
                tasks := st.tasks ++ [⟨pair.1, pair.2, p⟩]
                autoCount := st.autoCount + 1
                autoVars := insertNew st.autoVars pair.1
                events := st.events ++ [.autoDetectEv p.name pair.1] }
            else st
        | none => st

/-- The matching phase over the whole `env_vars` mapping. -/
def matchTasks (active : List (Str × ProviderM)) (registry : List ProviderM)
    (envVars : List (Str × Str)) : MatchSt :=
  envVars.foldl (matchStep active registry) ⟨[], [], 0, []⟩

/-- State threaded through the cache-probe loop (lines 130-140). -/
structure ProbeSt where
  cache : Cache
  cached : List KeyResult
  uncached : List OTask
  events : List Ev

/-- One iteration of the cache probe: a hit is recorded immediately
(re-flagged `auto_detected` if the variable was auto-classified) and
logged; a miss queues the task. -/
def probeStep (now : Nat) (autoVars : List Str) (st : ProbeSt) (t : OTask) :
    ProbeSt :=
  let probed := cacheGet st.cache now t.inst.name t.key
  match probed.1 with
  | some hit₀ =>
      let hit := if t.env_var ∈ autoVars then { hit₀ with autoDetected := true }
                 else hit₀
      { st with cache := probed.2, cached := st.cached ++ [hit],
                events := st.events ++ [.cacheHitEv t.inst.name t.env_var hit.status] }
  | none => { st with cache := probed.2, uncached := st.uncached ++ [t] }

/-- `fail_counts.get(inst.name, 0)`. -/
def countOf (counts : List (Str × Nat)) (p : Str) : Nat :=
  (lookupA counts p).getD 0

/-- Lines 159-167: coerce a task-level exception into a `network_error`
`KeyResult` (the batch-join half of the two-layer defense). -/
def coerceOutcome (inst : ProviderM) (env_var key : Str)
    (out : Except ExcInfo KeyResult) : KeyResult :=
  match out with
  | .error e =>
      { provider := inst.name, env_var := env_var,
        key_fingerprint := fingerprintFromKey key,
        status := .network_error,
        error_detail := some (e.excName ++ strOf ": " ++ e.msg) }
  | .ok r => r

/-- State threaded through the fresh-results loop (lines 156-186). -/
structure FreshSt where
  cache : Cache
  counts : List (Str × Nat)
  skipped : List Str
  events : List Ev
  acc : List KeyResult

/-- The `detail` string of a `provider_bail` event
(`f"skipped after {_FAIL_BAIL_THRESHOLD} consecutive failures"`). -/
def bailDetail : Str :=
  strOf "skipped after " ++ natStr FAIL_BAIL_THRESHOLD
    ++ strOf " consecutive failures"

/-- Lines 173-180, the circuit-breaker accounting for one fresh result:
the updated `fail_counts`, the updated `skipped_providers`, and whether
the bail branch fired (= whether a `provider_bail` event is logged). -/
def breakerUpd (counts : List (Str × Nat)) (skipped : List Str) (nm : Str)
    (st : Status) : List (Str × Nat) × List Str × Bool :=
  if failingStatus st then
    let n := countOf counts nm + 1
    if FAIL_BAIL_THRESHOLD ≤ n then
      (insertA counts nm n, insertNew skipped nm, true)
    else (insertA counts nm n, skipped, false)
  else (insertA counts nm 0, skipped, false)

/-- One iteration of the fresh-results loop: coerce, cache the result
(before the `auto_detected` re-flag, as the source does), update the
per-provider consecutive-failure counter and the bail accounting, then
log and append the (possibly re-flagged) result. -/
def freshStep (oracle : Oracle) (now : Nat) (autoVars : List Str)
    (st : FreshSt) (t : OTask) : FreshSt :=
  let result := coerceOutcome t.inst t.env_var t.key
    (oracle t.inst.name t.env_var t.key)
  let cache' := cachePut st.cache now t.inst.name t.key result
  let bk := breakerUpd st.counts st.skipped t.inst.name result.status
  let events' := if bk.2.2 then
      st.events ++ [.providerBail t.inst.name bailDetail]
    else st.events
  let result' := if t.env_var ∈ autoVars then { result with autoDetected := true }
                 else result
  { cache := cache', counts := bk.1, skipped := bk.2.1,
    events := events' ++ [.validateEv result'.provider result'.env_var
      result'.status result'.latency_ms],
    acc := st.acc ++ [result'] }

/-- The whole fresh-results loop, in `gather` (= dispatch) order. -/
def processFresh (oracle : Oracle) (now : Nat) (autoVars : List Str)
    (st₀ : FreshSt) (ts : List OTask) : FreshSt :=
  ts.foldl (freshStep oracle now autoVars) st₀

/-- Sort order of `results.sort(key=lambda r: (r.provider, r.env_var))`. -/
def resLe (a b : KeyResult) : Bool :=
  pairLe (a.provider, a.env_var) (b.provider, b.env_var)

/-- Stable insertion of one result into an already-sorted list. -/
def insertSorted (x : KeyResult) : List KeyResult → List KeyResult
  | [] => [x]
  | y :: ys => if resLe x y then x :: y :: ys else y :: insertSorted x ys

/-- A stable sort by `(provider, env_var)`, the model of line 188. -/
def sortResults (l : List KeyResult) : List KeyResult :=
  l.foldr insertSorted []

/-- `AuditSummary(0, 0, 0, 0, 0, 0, 0, 0, 0.0, 0)` of the two early
returns. -/
def zeroSummary : AuditSummary :=
  { total_keys := 0, valid := 0, failed := 0, errors := 0,
    providers_checked := 0, providers_skipped := 0, cache_hits := 0,
    cache_misses := 0, total_latency_ms := 0, auto_detected := 0 }

/-- Everything `audit` returns or leaves behind: the `AuditResults` list
with its `summary` and `_config_error` flag, the process environment at
return, the module-level cache, the buffered audit events, and
instrumentation the claims read: how many tasks were dispatched to the
network layer, how many results came from the cache this run, and the
run's `skipped_providers` set. -/
structure AuditOutcome where
  results : List KeyResult
  summary : AuditSummary
  configError : Bool
  environ : List (Str × Str)
  cache : Cache
  events : List Ev
  dispatched : Nat
  cacheHitRun : Nat
  skippedRun : List Str
  activeCount : Nat

/-- The empty, error-flagged `AuditResults` of the unknown-provider
abort (orchestrator lines 74-79): zero summary, `_config_error = True`,
nothing dispatched, environment and cache untouched, no flush. -/
def configErrorOut (envPath : Str) (environ₀ : List (Str × Str))
    (cache₀ : Cache) : AuditOutcome :=
  { results := [], summary := zeroSummary, configError := true,
    environ := environ₀, cache := cache₀, events := [Ev.auditStart envPath],
    dispatched := 0, cacheHitRun := 0, skippedRun := [], activeCount := 0 }

/-- `{name: registry[name]() for name in providers}` (every name known). -/
def activeExplicit (registry : List ProviderM) (ps : List Str) :
    List (Str × ProviderM) :=
  ps.foldl (fun acc n =>
    match registry.find? (fun p => p.name = n) with
    | some p => insertA acc n p
    | none => acc) []

/-- The body of `audit` after the active-provider set is fixed
(orchestrator lines 84-219). -/
def auditMain (registry : List ProviderM) (active : List (Str × ProviderM))
    (envVars : List (Str × Str)) (envPath : Str)
    (environ₀ : List (Str × Str)) (cache₀ : Cache) (oracle : Oracle)
    (now : Nat) : AuditOutcome :=
  let evs₀ := [Ev.auditStart envPath]
  let injected := injectEnv envVars environ₀
  let m := matchTasks active registry envVars
  if m.tasks.isEmpty then
    -- the "no matching credentials" early return (lines 121-127): note it
    -- returns with `injected.1`, never running the cleanup of lines 214-215
    { results := [], summary := zeroSummary, configError := false,
      environ := injected.1, cache := cache₀,
      events := evs₀ ++ m.events ++ [.auditEnd (strOf "no credentials found")],
      dispatched := 0, cacheHitRun := 0, skippedRun := [],
      activeCount := active.length }
  else
    let pr := m.tasks.foldl (probeStep now m.autoVars)
      ⟨cache₀, [], [], []⟩
    let fr := processFresh oracle now m.autoVars
      ⟨pr.cache, [], [], [], []⟩ pr.uncached
    let results := sortResults (pr.cached ++ fr.acc)
    let validCount := (results.filter (fun r => r.status = Status.valid)).length
    let failCount := (results.filter (fun r => failingStatus r.status)).length
    let errorCount :=
      (results.filter (fun r => r.status = Status.network_error)).length
    let totalLatency := (results.map (fun r => r.latency_ms)).sum
    let summary : AuditSummary :=
      { total_keys := results.length, valid := validCount, failed := failCount,
        errors := errorCount,
        providers_checked := active.length - fr.skipped.length,
        providers_skipped := fr.skipped.length,
        cache_hits := fr.cache.stats.hits,
        cache_misses := fr.cache.stats.misses,
        total_latency_ms := totalLatency,
        auto_detected := m.autoCount }
    let endEv := Ev.auditEnd (natStr results.length ++ strOf " keys, "
      ++ natStr validCount ++ strOf " valid, "
      ++ natStr fr.skipped.length ++ strOf " providers bailed")
    let environ₂ := injected.2.foldl (fun e v => eraseA e v) injected.1
    { results := results, summary := summary, configError := false,
      environ := environ₂, cache := fr.cache,
      events := evs₀ ++ m.events ++ pr.events ++ fr.events ++ [endEv],
      dispatched := pr.uncached.length, cacheHitRun := pr.cached.length,
      skippedRun := fr.skipped, activeCount := active.length }

/-- `audit` (orchestrator lines 55-219).  `envVars` stands for
`dotenv_values(env_path)` and `envPath` for `str(env_path)`; the audit
log's file-system effects are modelled separately by `flushM`.  The
unknown-explicit-provider check happens, as in the source, before any
environment injection, cache access or task dispatch. -/
def auditModel (registry : List ProviderM) (providersArg : Option (List Str))
    (envVars : List (Str × Str)) (envPath : Str)
    (environ₀ : List (Str × Str)) (cache₀ : Cache) (oracle : Oracle)
    (now : Nat) : AuditOutcome :=
  match providersArg with
  | some ps =>
      if ps.isEmpty then
        auditMain registry (registry.map fun p => (p.name, p)) envVars envPath
          environ₀ cache₀ oracle now
      else if ps.any (fun n => (registry.find? (fun p => p.name = n)).isNone) then
        configErrorOut envPath environ₀ cache₀
      else
        auditMain registry (activeExplicit registry ps) envVars envPath
          environ₀ cache₀ oracle now
  | none =>
      auditMain registry (registry.map fun p => (p.name, p)) envVars envPath
        environ₀ cache₀ oracle now

/- ### Concrete fixtures used by the witnesses and counterexamples -/

/-- A fresh module-level cache, as `ValidationCache(ttl_seconds=3600)`
constructs it at import time. -/
def freshCache : Cache :=
  { ttl := 3600, maxSize := 10000, store := [], stats := ⟨0, 0⟩ }

/-- The module-level cache as it looks after earlier runs in the same
process: five hits and seven misses already recorded, no live entries. -/
def statCache : Cache :=
  { ttl := 3600, maxSize := 10000, store := [], stats := ⟨5, 7⟩ }

/-- An oracle for runs in which every dispatched task raises (provider
endpoints unreachable). -/
def downOracle : Oracle :=
  fun _ _ _ => .error ⟨strOf "ConnectTimeout", strOf "connection timed out"⟩

/-- An oracle for runs in which every dispatched task reports a clean
`auth_failed` result. -/
def authFailOracle : Oracle :=
  fun p v k => .ok { provider := p, env_var := v,
                     key_fingerprint := fingerprintFromKey k,
                     status := .auth_failed }

/-- Three well-formed OpenAI-shaped secrets. -/
def oaiKey1 : Str := strOf "sk-" ++ (List.replicate 20 'a' : Str)

def oaiKey2 : Str := strOf "sk-" ++ (List.replicate 20 'b' : Str)

def oaiKey3 : Str := strOf "sk-" ++ (List.replicate 20 'c' : Str)

/-- The three-variable `.env` mapping driving the bail witness. -/
def bailEnvVars : List (Str × Str) :=
  [(strOf "OPENAI_API_KEY", oaiKey1), (strOf "OPENAI_API_KEY_ALT1", oaiKey2),
   (strOf "OPENAI_API_KEY_ALT2", oaiKey3)]

/-- The three tasks the matcher produces from `bailEnvVars`. -/
def bailTasks : List OTask :=
  [⟨strOf "OPENAI_API_KEY", oaiKey1, openaiM⟩,
   ⟨strOf "OPENAI_API_KEY_ALT1", oaiKey2, openaiM⟩,
   ⟨strOf "OPENAI_API_KEY_ALT2", oaiKey3, openaiM⟩]

/-- The initial state of the fresh-results loop (empty trackers, the
cache as the probe phase left it). -/
def freshInit (c : Cache) : FreshSt := ⟨c, [], [], [], []⟩

/-- A provider instance whose `validate` always raises, for the
`check_key` witness (`openai` matching data, unreachable endpoint). -/
def timeoutProvider : ProviderIO :=
  { name := strOf "openai", keyFormatOk := openaiKeyFormat,
    validate := fun _ => .error ⟨strOf "ConnectTimeout", strOf "connection timed out"⟩ }

/-- The sample result of the repository's own `test_canonical_field_order`. -/
def sampleResult : KeyResult :=
  { provider := strOf "openai", env_var := strOf "OPENAI_API_KEY",
    key_fingerprint := ⟨strOf "sk-t", strOf "xyz1", 51⟩, status := .valid }

/-- The ten keys `KeyResult.to_dict` actually emits, in source order. -/
def tenDictKeys : List Str :=
  [strOf "provider", strOf "env_var", strOf "key_fingerprint", strOf "status",
   strOf "account_info", strOf "scopes", strOf "rate_limit",
   strOf "usage_stats", strOf "latency_ms", strOf "error_detail"]

/-- The eleven keys the spec (and the repository's own test and the
orchestrator's `replace(..., auto_detected=True)`) require. -/
def elevenDictKeys : List Str :=
  tenDictKeys ++ [strOf "auto_detected"]

/-- A file-system state in which the log directory cannot be created
(e.g. `mkdir` hits a permission error); everything else would succeed. -/
def fsNoMkdir : FS :=
  { isSymlink := false, mkdirOk := false, pathExists := false, size := 0,
    rotatedExists := false, unlinkOk := true, renameOk := true,
    openOk := true, writeOk := true }

/-- A well-formed Anthropic-shaped secret (also matched by the broader
OpenAI pattern). -/
def antKey : Str := strOf "sk-ant-" ++ (List.replicate 20 'a' : Str)

/-- A stored `KeyResult` for the cache round-trip witness. -/
def cachedSample : KeyResult :=
  { provider := strOf "openai", env_var := strOf "OPENAI_API_KEY",
    key_fingerprint := fingerprintFromKey oaiKey1, status := .valid,
    latency_ms := 42 }

/- ### Helper lemmas about the dictionary model -/

theorem lookupA_map_replace {α : Type} (l : List (Str × α)) (k : Str) (v : α)
    (h : containsA l k = true) :
    lookupA (l.map (fun q => if q.1 = k then (k, v) else q)) k = some v := by
  induction l with
  | nil => simp [containsA, lookupA] at h
  | cons p t ih =>
      by_cases hp : p.1 = k
      · simp [lookupA, hp]
      · have h' : containsA t k = true := by
          simpa [containsA, lookupA, hp] using h
        simp [lookupA, hp]
        exact ih h'

theorem lookupA_map_replace_ne {α : Type} (l : List (Str × α)) (k k' : Str)
    (v : α) (h : k' ≠ k) :
    lookupA (l.map (fun q => if q.1 = k then (k, v) else q)) k' = lookupA l k' := by
  induction l with
  | nil => simp [lookupA]
  | cons p t ih =>
      have hk : ¬ (k = k') := fun hh => h hh.symm
      by_cases hp : p.1 = k
      · have hpk' : ¬ (p.1 = k') := by rw [hp]; exact hk
        simp [lookupA, hp, hk, hpk']
        exact ih
      · by_cases hpk : p.1 = k'
        · simp [lookupA, hp, hpk, h]
        · simp [lookupA, hp, hpk]
          exact ih

theorem lookupA_append_single {α : Type} (l : List (Str × α)) (k : Str) (v : α)
    (h : lookupA l k = none) : lookupA (l ++ [(k, v)]) k = some v := by
  induction l with
  | nil => simp [lookupA]
  | cons p t ih =>
      by_cases hp : p.1 = k
      · simp [lookupA, hp] at h
      · have h' : lookupA t k = none := by simpa [lookupA, hp] using h
        simp [lookupA, hp]
        exact ih h'

theorem lookupA_append_single_ne {α : Type} (l : List (Str × α)) (k k' : Str)
    (v : α) (h : k' ≠ k) : lookupA (l ++ [(k, v)]) k' = lookupA l k' := by
  induction l with
  | nil =>
      have hk : ¬ (k = k') := fun hh => h hh.symm
      simp [lookupA, hk]
  | cons p t ih =>
      by_cases hpk : p.1 = k'
      · simp [lookupA, hpk]
      · simp [lookupA, hpk]
        exact ih

theorem lookupA_insertA {α : Type} (l : List (Str × α)) (k : Str) (v : α) :
    lookupA (insertA l k v) k = some v := by
  unfold insertA
  by_cases hc : containsA l k = true
  · simpa [hc] using lookupA_map_replace l k v hc
  · have h : lookupA l k = none := by
      unfold containsA at hc
      cases hl : lookupA l k with
      | none => rfl
      | some w => rw [hl] at hc; simp at hc
    simpa [hc] using lookupA_append_single l k v h

theorem lookupA_insertA_ne {α : Type} (l : List (Str × α)) (k k' : Str) (v : α)
    (h : k' ≠ k) : lookupA (insertA l k v) k' = lookupA l k' := by
  unfold insertA
  by_cases hc : containsA l k = true
  · simpa [hc] using lookupA_map_replace_ne l k k' v h
  · simpa [hc] using lookupA_append_single_ne l k k' v h

theorem lookupA_eraseA {α : Type} (l : List (Str × α)) (k : Str) :
    lookupA (eraseA l k) k = none := by
  induction l with
  | nil => simp [eraseA, lookupA]
  | cons p t ih =>
      by_cases hp : p.1 = k
      · simpa [eraseA, hp] using ih
      · simpa [eraseA, lookupA, hp] using ih

theorem mem_insertNew_self (l : List Str) (x : Str) : x ∈ insertNew l x := by
  unfold insertNew
  by_cases h : x ∈ l <;> simp [h]

theorem mem_insertNew_of_mem (l : List Str) (x y : Str) (h : y ∈ l) :
    y ∈ insertNew l x := by
  unfold insertNew
  by_cases hx : x ∈ l <;> simp [hx, h]

theorem countOf_insertA_self (counts : List (Str × Nat)) (p : Str) (n : Nat) :
    countOf (insertA counts p n) p = n := by
  simp [countOf, lookupA_insertA]

theorem countOf_insertA_ne (counts : List (Str × Nat)) (p q : Str) (n : Nat)
    (h : q ≠ p) : countOf (insertA counts p n) q = countOf counts q := by
  simp [countOf, lookupA_insertA_ne counts p q n h]

theorem substrOf_length (s t : Str) (h : substrOf s t = true) :
    s.length ≤ t.length := by
  unfold substrOf at h
  rcases List.any_eq_true.mp h with ⟨i, _, hi⟩
  have hs : (t.drop i).take s.length = s := of_decide_eq_true hi
  have hlen := congrArg List.length hs
  simp [List.length_take, List.length_drop] at hlen
  omega

/- ### Order lemmas for the lexicographic name comparison -/

theorem strLt_irrefl : ∀ a : Str, strLt a a = false := by
  intro a
  induction a with
  | nil => simp [strLt]
  | cons x s ih => simp [strLt, ih]

theorem strLt_asymm : ∀ a b : Str, strLt a b = true → strLt b a = false := by
  intro a
  induction a with
  | nil =>
      intro b hb
      cases b with
      | nil => simp [strLt] at hb
      | cons y t => simp [strLt]
  | cons x s ih =>
      intro b hb
      cases b with
      | nil => simp [strLt] at hb
      | cons y t =>
          by_cases hxy : x = y
          · subst hxy
            simp [strLt] at hb ⊢
            exact ih t hb
          · have hyx : ¬ (y = x) := fun hh => hxy hh.symm
            simp [strLt, hxy] at hb
            simp [strLt, hyx]
            omega

theorem strLt_trans : ∀ a b c : Str, strLt a b = true → strLt b c = true →
    strLt a c = true := by
  intro a
  induction a with
  | nil =>
      intro b c hab hbc
      cases b with
      | nil => simp [strLt] at hab
      | cons y t =>
          cases c with
          | nil => simp [strLt] at hbc
          | cons z u => simp [strLt]
  | cons x s ih =>
      intro b c hab hbc
      cases b with
      | nil => simp [strLt] at hab
      | cons y t =>
          cases c with
          | nil => simp [strLt] at hbc
          | cons z u =>
              by_cases hxy : x = y
              · subst hxy
                by_cases hyz : x = z
                · subst hyz
                  simp [strLt] at hab hbc ⊢
                  exact ih t u hab hbc
                · simp [strLt, hyz] at hbc ⊢
                  exact hbc
              · simp [strLt, hxy] at hab
                by_cases hyz : y = z
                · subst hyz
                  simp [strLt, hxy]
                  exact hab
                · simp [strLt, hyz] at hbc
                  have hlt : x.toNat < z.toNat := Nat.lt_trans hab hbc
                  have hxz : ¬ (x = z) := by
                    intro hh
                    rw [hh] at hlt
                    omega
                  simp [strLt, hxz]
                  exact hlt

/- ### Circuit-breaker lemmas -/

theorem breakerUpd_reach (counts : List (Str × Nat)) (skipped : List Str)
    (nm : Str) (st : Status)
    (h : ∀ r, FAIL_BAIL_THRESHOLD ≤ countOf counts r → r ∈ skipped) :
    ∀ q, FAIL_BAIL_THRESHOLD ≤ countOf (breakerUpd counts skipped nm st).1 q →
      q ∈ (breakerUpd counts skipped nm st).2.1 := by
  intro q hq
  unfold breakerUpd at hq ⊢
  by_cases hf : failingStatus st = true
  · by_cases hth : FAIL_BAIL_THRESHOLD ≤ countOf counts nm + 1
    · simp only [hf, if_true, hth] at hq ⊢
      by_cases hqn : q = nm
      · subst hqn
        exact mem_insertNew_self _ _
      · rw [countOf_insertA_ne _ _ _ _ hqn] at hq
        exact mem_insertNew_of_mem _ _ _ (h q hq)
    · simp only [hf, if_true, hth, if_false] at hq ⊢
      by_cases hqn : q = nm
      · subst hqn
        rw [countOf_insertA_self] at hq
        exact absurd hq hth
      · rw [countOf_insertA_ne _ _ _ _ hqn] at hq
        exact h q hq
  · simp only [Bool.not_eq_true] at hf
    simp only [hf, Bool.false_eq_true, if_false] at hq ⊢
    by_cases hqn : q = nm
    · subst hqn
      rw [countOf_insertA_self] at hq
      simp [FAIL_BAIL_THRESHOLD] at hq
    · rw [countOf_insertA_ne _ _ _ _ hqn] at hq
      exact h q hq

theorem breakerUpd_skipped_mono (counts : List (Str × Nat)) (skipped : List Str)
    (nm : Str) (st : Status) (q : Str) (h : q ∈ skipped) :
    q ∈ (breakerUpd counts skipped nm st).2.1 := by
  unfold breakerUpd
  by_cases hf : failingStatus st = true
  · by_cases hth : FAIL_BAIL_THRESHOLD ≤ countOf counts nm + 1
    · simp only [hf, if_true, hth]
      exact mem_insertNew_of_mem _ _ _ h
    · simp only [hf, if_true, hth, if_false]
      exact h
  · simp only [Bool.not_eq_true] at hf
    simp only [hf, Bool.false_eq_true, if_false]
    exact h

theorem breakerUpd_new_mem (counts : List (Str × Nat)) (skipped : List Str)
    (nm : Str) (st : Status) (q : Str)
    (h : q ∈ (breakerUpd counts skipped nm st).2.1) :
    q ∈ skipped ∨ (q = nm ∧ (breakerUpd counts skipped nm st).2.2 = true) := by
  unfold breakerUpd at h ⊢
  by_cases hf : failingStatus st = true
  · by_cases hth : FAIL_BAIL_THRESHOLD ≤ countOf counts nm + 1
    · simp only [hf, if_true, hth] at h ⊢
      unfold insertNew at h
      by_cases hm : nm ∈ skipped
      · simp only [hm, if_true] at h
        exact Or.inl h
      · simp only [hm, if_false, List.mem_append, List.mem_singleton] at h
        rcases h with h | h
        · exact Or.inl h
        · exact Or.inr ⟨h, trivial⟩
    · simp only [hf, if_true, hth, if_false] at h
      exact Or.inl h
  · simp only [Bool.not_eq_true] at hf
    simp only [hf, Bool.false_eq_true, if_false] at h
    exact Or.inl h

theorem breakerUpd_nonfailing (counts : List (Str × Nat)) (skipped : List Str)
    (nm : Str) (st : Status) (h : failingStatus st = false) :
    countOf (breakerUpd counts skipped nm st).1 nm = 0 := by
  unfold breakerUpd
  simp only [h, Bool.false_eq_true, if_false]
  exact countOf_insertA_self _ _ _

theorem freshStep_counts_eq (o : Oracle) (now : Nat) (a : List Str)
    (st : FreshSt) (t : OTask) :
    (freshStep o now a st t).counts
      = (breakerUpd st.counts st.skipped t.inst.name
          (coerceOutcome t.inst t.env_var t.key
            (o t.inst.name t.env_var t.key)).status).1 := rfl

theorem freshStep_skipped_eq (o : Oracle) (now : Nat) (a : List Str)
    (st : FreshSt) (t : OTask) :
    (freshStep o now a st t).skipped
      = (breakerUpd st.counts st.skipped t.inst.name
          (coerceOutcome t.inst t.env_var t.key
            (o t.inst.name t.env_var t.key)).status).2.1 := rfl

theorem freshStep_events_mem (o : Oracle) (now : Nat) (a : List Str)
    (st : FreshSt) (t : OTask) (e : Ev) (he : e ∈ st.events) :
    e ∈ (freshStep o now a st t).events := by
  show e ∈ (if (breakerUpd st.counts st.skipped t.inst.name
      (coerceOutcome t.inst t.env_var t.key
        (o t.inst.name t.env_var t.key)).status).2.2 then
      st.events ++ [.providerBail t.inst.name bailDetail]
    else st.events) ++ _
  by_cases hb : (breakerUpd st.counts st.skipped t.inst.name
      (coerceOutcome t.inst t.env_var t.key
        (o t.inst.name t.env_var t.key)).status).2.2 = true
  · simp [hb, he]
  · simp only [Bool.not_eq_true] at hb
    simp [hb, he]

theorem freshStep_bail_mem (o : Oracle) (now : Nat) (a : List Str)
    (st : FreshSt) (t : OTask)
    (hb : (breakerUpd st.counts st.skipped t.inst.name
      (coerceOutcome t.inst t.env_var t.key
        (o t.inst.name t.env_var t.key)).status).2.2 = true) :
    Ev.providerBail t.inst.name bailDetail ∈ (freshStep o now a st t).events := by
  show Ev.providerBail t.inst.name bailDetail ∈ (if (breakerUpd st.counts
      st.skipped t.inst.name (coerceOutcome t.inst t.env_var t.key
        (o t.inst.name t.env_var t.key)).status).2.2 then
      st.events ++ [.providerBail t.inst.name bailDetail]
    else st.events) ++ _
  simp [hb]

theorem processFresh_invariant (o : Oracle) (now : Nat) (a : List Str)
    (P : FreshSt → Prop)
    (hstep : ∀ st t, P st → P (freshStep o now a st t)) :
    ∀ (ts : List OTask) (st : FreshSt), P st → P (processFresh o now a st ts) := by
  intro ts
  induction ts with
  | nil =>
      intro st h
      simpa [processFresh] using h
  | cons t ts ih =>
      intro st h
      have hstepfold : processFresh o now a st (t :: ts)
          = processFresh o now a (freshStep o now a st t) ts := by
        simp [processFresh]
      rw [hstepfold]
      exact ih _ (hstep _ _ h)

theorem processFresh_append (o : Oracle) (now : Nat) (a : List Str)
    (ts₁ ts₂ : List OTask) (st : FreshSt) :
    processFresh o now a st (ts₁ ++ ts₂)
      = processFresh o now a (processFresh o now a st ts₁) ts₂ := by
  simp [processFresh, List.foldl_append]

theorem processFresh_breakerInv (o : Oracle) (now : Nat) (a : List Str)
    (ts : List OTask) (st : FreshSt)
    (h : ∀ q, FAIL_BAIL_THRESHOLD ≤ countOf st.counts q → q ∈ st.skipped) :
    ∀ q, FAIL_BAIL_THRESHOLD ≤ countOf (processFresh o now a st ts).counts q →
      q ∈ (processFresh o now a st ts).skipped := by
  refine processFresh_invariant o now a
    (fun s => ∀ q, FAIL_BAIL_THRESHOLD ≤ countOf s.counts q → q ∈ s.skipped)
    ?_ ts st h
  intro s t hs q hq
  rw [freshStep_counts_eq] at hq
  rw [freshStep_skipped_eq]
  exact breakerUpd_reach s.counts s.skipped t.inst.name _ hs q hq

theorem processFresh_skipped_mono (o : Oracle) (now : Nat) (a : List Str)
    (ts : List OTask) (st : FreshSt) (q : Str) (h : q ∈ st.skipped) :
    q ∈ (processFresh o now a st ts).skipped := by
  refine processFresh_invariant o now a (fun s => q ∈ s.skipped) ?_ ts st h
  intro s t hs
  rw [freshStep_skipped_eq]
  exact breakerUpd_skipped_mono s.counts s.skipped t.inst.name _ q hs

theorem processFresh_bailInv (o : Oracle) (now : Nat) (a : List Str)
    (ts : List OTask) (st : FreshSt)
    (h : ∀ q, q ∈ st.skipped → ∃ d, Ev.providerBail q d ∈ st.events) :
    ∀ q, q ∈ (processFresh o now a st ts).skipped →
      ∃ d, Ev.providerBail q d ∈ (processFresh o now a st ts).events := by
  refine processFresh_invariant o now a
    (fun s => ∀ q, q ∈ s.skipped → ∃ d, Ev.providerBail q d ∈ s.events)
    ?_ ts st h
  intro s t hs q hq
  rw [freshStep_skipped_eq] at hq
  rcases breakerUpd_new_mem s.counts s.skipped t.inst.name _ q hq with hold | ⟨hqn, hb⟩
  · rcases hs q hold with ⟨d, hd⟩
    exact ⟨d, freshStep_events_mem o now a s t _ hd⟩
  · subst hqn
    exact ⟨bailDetail, freshStep_bail_mem o now a s t hb⟩

/- ### Cache statistics lemmas -/

theorem cacheGet_stats (c : Cache) (now : Nat) (p k : Str) :
    ((cacheGet c now p k).2).stats.hits
        = c.stats.hits + (if (cacheGet c now p k).1.isSome then 1 else 0)
    ∧ ((cacheGet c now p k).2).stats.misses
        = c.stats.misses + (if (cacheGet c now p k).1.isSome then 0 else 1) := by
  unfold cacheGet
  cases h : lookupA c.store (cacheKeyS p k) with
  | none => simp [h]
  | some e => by_cases ha : now - e.2 < c.ttl <;> simp [h, ha]

theorem probeStep_counts (now : Nat) (a : List Str) (st : ProbeSt) (t : OTask) :
    (probeStep now a st t).cache.stats.hits + st.cached.length
        = st.cache.stats.hits + (probeStep now a st t).cached.length
    ∧ (probeStep now a st t).cache.stats.misses + st.uncached.length
        = st.cache.stats.misses + (probeStep now a st t).uncached.length := by
  unfold probeStep
  rcases cacheGet_stats st.cache now t.inst.name t.key with ⟨hh, hm⟩
  cases hres : (cacheGet st.cache now t.inst.name t.key).1 with
  | some hit =>
      simp [hres] at hh hm
      simp [hres, hh, hm]
      omega
  | none =>
      simp [hres] at hh hm
      simp [hres, hh, hm]
      omega

theorem probeFold_counts (now : Nat) (a : List Str) :
    ∀ (ts : List OTask) (st : ProbeSt),
      (ts.foldl (probeStep now a) st).cache.stats.hits + st.cached.length
          = st.cache.stats.hits + (ts.foldl (probeStep now a) st).cached.length
      ∧ (ts.foldl (probeStep now a) st).cache.stats.misses + st.uncached.length
          = st.cache.stats.misses
              + (ts.foldl (probeStep now a) st).uncached.length := by
  intro ts
  induction ts with
  | nil => intro st; simp
  | cons t ts ih =>
      intro st
      have hfold : (t :: ts).foldl (probeStep now a) st
          = ts.foldl (probeStep now a) (probeStep now a st t) := by simp
      rw [hfold]
      rcases ih (probeStep now a st t) with ⟨ih1, ih2⟩
      rcases probeStep_counts now a st t with ⟨s1, s2⟩
      constructor <;> omega

theorem processFresh_cache_stats (o : Oracle) (now : Nat) (a : List Str) :
    ∀ (ts : List OTask) (st : FreshSt),
      (processFresh o now a st ts).cache.stats = st.cache.stats := by
  intro ts
  induction ts with
  | nil => intro st; simp [processFresh]
  | cons t ts ih =>
      intro st
      have hfold : processFresh o now a st (t :: ts)
          = processFresh o now a (freshStep o now a st t) ts := by
        simp [processFresh]
      rw [hfold, ih]
      rfl

/- ### Orchestrator path lemmas -/

theorem auditMain_fields (registry : List ProviderM)
    (active : List (Str × ProviderM)) (envVars : List (Str × Str))
    (envPath : Str) (environ₀ : List (Str × Str)) (cache₀ : Cache)
    (oracle : Oracle) (now : Nat)
    (h : (matchTasks active registry envVars).tasks.isEmpty = false) :
    let m := matchTasks active registry envVars
    let pr := m.tasks.foldl (probeStep now m.autoVars)
      (⟨cache₀, [], [], []⟩ : ProbeSt)
    let fr := processFresh oracle now m.autoVars
      (⟨pr.cache, [], [], [], []⟩ : FreshSt) pr.uncached
    let out := auditMain registry active envVars envPath environ₀ cache₀
      oracle now
    out.summary.providers_checked = active.length - fr.skipped.length
    ∧ out.summary.providers_skipped = fr.skipped.length
    ∧ out.summary.cache_hits = fr.cache.stats.hits
    ∧ out.summary.cache_misses = fr.cache.stats.misses
    ∧ out.skippedRun = fr.skipped
    ∧ out.activeCount = active.length
    ∧ out.cacheHitRun = pr.cached.length
    ∧ out.dispatched = pr.uncached.length := by
  intro m pr fr out
  have hout : out = auditMain registry active envVars envPath environ₀ cache₀
      oracle now := rfl
  simp only [auditMain, h, Bool.false_eq_true, if_false] at hout
  refine ⟨?_, ?_, ?_, ?_, ?_, ?_, ?_, ?_⟩ <;> simp only [hout]

theorem auditMain_empty (registry : List ProviderM)
    (active : List (Str × ProviderM)) (envVars : List (Str × Str))
    (envPath : Str) (environ₀ : List (Str × Str)) (cache₀ : Cache)
    (oracle : Oracle) (now : Nat)
    (h : (matchTasks active registry envVars).tasks.isEmpty = true) :
    let out := auditMain registry active envVars envPath environ₀ cache₀
      oracle now
    out.results = [] ∧ out.summary = zeroSummary ∧ out.configError = false
    ∧ out.environ = (injectEnv envVars environ₀).1
    ∧ out.skippedRun = [] ∧ out.dispatched = 0 := by
  intro out
  have hout : out = auditMain registry active envVars envPath environ₀ cache₀
      oracle now := rfl
  simp only [auditMain, h, if_true] at hout
  refine ⟨?_, ?_, ?_, ?_, ?_, ?_⟩ <;> simp only [hout]

theorem strLt_connex : ∀ a b : Str, strLt a b = false → strLt b a = false →
    a = b := by
  intro a
  induction a with
  | nil =>
      intro b hab _
      cases b with
      | nil => rfl
      | cons y t => simp [strLt] at hab
  | cons x s ih =>
      intro b hab hba
      cases b with
      | nil => simp [strLt] at hba
      | cons y t =>
          by_cases hxy : x = y
          · subst hxy
            simp [strLt] at hab hba
            rw [ih t hab hba]
          · have hyx : ¬ (y = x) := fun hh => hxy hh.symm
            simp [strLt, hxy] at hab
            simp [strLt, hyx] at hba
            have hnat : x.toNat = y.toNat := by omega
            have hv : x.val.toBitVec.toNat = y.val.toBitVec.toNat := hnat
            have hbv : x.val.toBitVec = y.val.toBitVec :=
              BitVec.eq_of_toNat_eq hv
            have hval : x.val = y.val := by
              cases hx : x.val with
              | mk bx =>
                  cases hy : y.val with
                  | mk by' =>
                      rw [hx, hy] at hbv
                      exact congrArg UInt32.mk hbv
            exact absurd (Char.ext hval) hxy

theorem rank_trans (sa sb sc : Nat) (na nb nc : Str)
    (h1 : sa < sb ∨ (sa = sb ∧ strLt na nb = false))
    (h2 : sb < sc ∨ (sb = sc ∧ strLt nb nc = false)) :
    sa < sc ∨ (sa = sc ∧ strLt na nc = false) := by
  rcases h1 with h1 | ⟨h1e, h1n⟩
  · rcases h2 with h2 | ⟨h2e, _⟩
    · exact Or.inl (Nat.lt_trans h1 h2)
    · exact Or.inl (h2e ▸ h1)
  · rcases h2 with h2 | ⟨h2e, h2n⟩
    · exact Or.inl (h1e ▸ h2)
    · refine Or.inr ⟨h1e.trans h2e, ?_⟩
      by_contra hlt
      simp only [Bool.not_eq_false] at hlt
      rcases Bool.eq_false_or_eq_true (strLt nb na) with hba | hba
      · have htr := strLt_trans nb na nc hba hlt
        exact absurd htr (by simp [h2n])
      · have heq := strLt_connex na nb h1n hba
        subst heq
        exact absurd hlt (by simp [h2n])

theorem detectPick_fold_best : ∀ (l : List ProviderM) (b : ProviderM),
    ∃ p, l.foldl detectPick (some b) = some p
      ∧ (p = b ∨ p ∈ l)
      ∧ (∀ q, (q = b ∨ q ∈ l) →
          literalPrefixLen q.keyFormatText < literalPrefixLen p.keyFormatText
          ∨ (literalPrefixLen q.keyFormatText = literalPrefixLen p.keyFormatText
             ∧ strLt q.name p.name = false)) := by
  intro l
  induction l with
  | nil =>
      intro b
      refine ⟨b, rfl, Or.inl rfl, ?_⟩
      intro q hq
      rcases hq with rfl | hq
      · exact Or.inr ⟨rfl, strLt_irrefl _⟩
      · simp at hq
  | cons q l ih =>
      intro b
      -- the step picks the better of `b` and `q`, which dominates both
      have hstep : ∃ b', detectPick (some b) q = some b'
          ∧ (b' = b ∨ b' = q)
          ∧ (literalPrefixLen b.keyFormatText < literalPrefixLen b'.keyFormatText
             ∨ (literalPrefixLen b.keyFormatText = literalPrefixLen b'.keyFormatText
                ∧ strLt b.name b'.name = false))
          ∧ (literalPrefixLen q.keyFormatText < literalPrefixLen b'.keyFormatText
             ∨ (literalPrefixLen q.keyFormatText = literalPrefixLen b'.keyFormatText
                ∧ strLt q.name b'.name = false)) := by
        unfold detectPick
        by_cases h1 : literalPrefixLen q.keyFormatText
            > literalPrefixLen b.keyFormatText
        · refine ⟨q, by simp [h1], Or.inr rfl, Or.inl h1, ?_⟩
          exact Or.inr ⟨rfl, strLt_irrefl _⟩
        · by_cases h2 : (decide (literalPrefixLen q.keyFormatText
              = literalPrefixLen b.keyFormatText) && strLt q.name b.name) = true
          · rcases (Bool.and_eq_true _ _).mp h2 with ⟨h2e, h2n⟩
            have h2e' := of_decide_eq_true h2e
            refine ⟨q, by simp [h1, h2], Or.inr rfl,
              Or.inr ⟨h2e'.symm, strLt_asymm _ _ h2n⟩,
              Or.inr ⟨rfl, strLt_irrefl _⟩⟩
          · refine ⟨b, by simp [h1, h2], Or.inl rfl,
              Or.inr ⟨rfl, strLt_irrefl _⟩, ?_⟩
            by_cases h3 : literalPrefixLen q.keyFormatText
                = literalPrefixLen b.keyFormatText
            · refine Or.inr ⟨h3, ?_⟩
              by_contra hq
              simp only [Bool.not_eq_false] at hq
              exact h2 (by simp [h3, hq])
            · omega
      rcases hstep with ⟨b', hb'eq, hb'mem, hbb', hqb'⟩
      rcases ih b' with ⟨p, hfold, hmem, hbest⟩
      refine ⟨p, ?_, ?_, ?_⟩
      · show (q :: l).foldl detectPick (some b) = some p
        rw [List.foldl_cons, hb'eq]
        exact hfold
      · rcases hmem with rfl | hp
        · rcases hb'mem with rfl | rfl
          · exact Or.inl rfl
          · exact Or.inr (List.mem_cons_self _ _)
        · exact Or.inr (List.mem_cons_of_mem _ hp)
      · intro r hr
        have hb'p := hbest b' (Or.inl rfl)
        rcases hr with rfl | hr
        · exact rank_trans _ _ _ _ _ _ hbb' hb'p
        · rcases List.mem_cons.mp hr with rfl | hr
          · exact rank_trans _ _ _ _ _ _ hqb' hb'p
          · exact hbest r (Or.inr hr)

theorem auditModel_main_or (registry : List ProviderM)
    (pa : Option (List Str)) (envVars : List (Str × Str)) (envPath : Str)
    (environ₀ : List (Str × Str)) (cache₀ : Cache) (oracle : Oracle)
    (now : Nat) :
    (∃ active, auditModel registry pa envVars envPath environ₀ cache₀ oracle now
        = auditMain registry active envVars envPath environ₀ cache₀ oracle now)
    ∨ auditModel registry pa envVars envPath environ₀ cache₀ oracle now
        = configErrorOut envPath environ₀ cache₀ := by
  cases pa with
  | none => exact Or.inl ⟨_, rfl⟩
  | some ps =>
      by_cases h1 : ps.isEmpty = true
      · exact Or.inl ⟨registry.map (fun p => (p.name, p)), by
          simp [auditModel, h1]⟩
      · by_cases h2 : ps.any
            (fun n => (registry.find? (fun p => p.name = n)).isNone) = true
        · refine Or.inr ?_
          simp [auditModel, h1, h2]
        · exact Or.inl ⟨activeExplicit registry ps, by
            simp [auditModel, h1, h2]⟩

/- ### Claim theorems -/

/-- C1: `Provider.check_key` never raises (it is a total function here,
mirroring the source's format gate plus catch-all handler): when
`check_format` rejects the secret the result is `invalid_format` with the
format message, zero `validate` invocations (hence zero network calls)
and the default latency; when `validate` raises any exception, the result
is `network_error` whose `error_detail` is the exception's type name and
message, after exactly one `validate` call. -/
theorem check_key_two_layer_defense (P : ProviderIO) (env_var key : Str)
    (lat : ℚ) :
    (P.keyFormatOk key = false →
      (checkKey P env_var key lat).result.status = Status.invalid_format
      ∧ (checkKey P env_var key lat).validateCalls = 0
      ∧ (checkKey P env_var key lat).result.error_detail
          = some (strOf "Key does not match expected " ++ P.name
              ++ strOf " format")
      ∧ (checkKey P env_var key lat).result.latency_ms = 0)
    ∧ (∀ e, P.keyFormatOk key = true → P.validate key = Except.error e →
      (checkKey P env_var key lat).result.status = Status.network_error
      ∧ (checkKey P env_var key lat).result.error_detail
          = some (e.excName ++ strOf ": " ++ e.msg)
      ∧ (checkKey P env_var key lat).validateCalls = 1) := by
  constructor
  · intro hf
    simp [checkKey, checkFormat, hf]
  · intro e hok he
    simp [checkKey, checkFormat, hok, he]

/-- Witness for C1: the OpenAI adapter with an unreachable endpoint,
once on a malformed secret (format gate, no `validate` call) and once on
a well-formed secret whose `validate` raises `ConnectTimeout`. -/
theorem check_key_two_layer_defense_witness :
    (timeoutProvider.keyFormatOk (strOf "bad-token") = false
      ∧ (checkKey timeoutProvider (strOf "OPENAI_API_KEY")
          (strOf "bad-token") 0).result.status = Status.invalid_format
      ∧ (checkKey timeoutProvider (strOf "OPENAI_API_KEY")
          (strOf "bad-token") 0).validateCalls = 0)
    ∧ ((checkKey timeoutProvider (strOf "OPENAI_API_KEY") oaiKey1 7).result.status
          = Status.network_error
      ∧ (checkKey timeoutProvider (strOf "OPENAI_API_KEY") oaiKey1 7).result.error_detail
          = some (strOf "ConnectTimeout" ++ strOf ": "
              ++ strOf "connection timed out")) := by
  have h1 := (check_key_two_layer_defense timeoutProvider
    (strOf "OPENAI_API_KEY") (strOf "bad-token") 0).1 (by decide)
  have h2 := (check_key_two_layer_defense timeoutProvider
    (strOf "OPENAI_API_KEY") oaiKey1 7).2
    ⟨strOf "ConnectTimeout", strOf "connection timed out"⟩ (by decide) rfl
  exact ⟨⟨by decide, h1.1, h1.2.1⟩, h2.1, h2.2.1⟩

/-- C2 (code bug): `KeyResult.to_dict` emits exactly the ten keys
`provider .. error_detail` and omits `auto_detected`, although the
repository's own test (`test_canonical_field_order`), the spec, and the
orchestrator's `replace(result, auto_detected=True)` all require the
eleventh field.  Evaluated on the test's own sample record. -/
theorem to_dict_omits_auto_detected :
    (keyResultToDict sampleResult).map Prod.fst = tenDictKeys
    ∧ (keyResultToDict sampleResult).map Prod.fst ≠ elevenDictKeys := by
  constructor
  · rfl
  · decide

/-- C5: after `put(provider, secret, result)`, a `get` of the same pair
whose clock reading is within the TTL returns the stored result and
increments the hit counter (misses untouched); a `get` at or past the
TTL returns nothing, increments the miss counter (hits untouched), and
removes the stale entry from the store. -/
theorem cache_put_get_ttl (c : Cache) (t₁ t₂ : Nat) (p k : Str)
    (r : KeyResult) (hmono : t₁ ≤ t₂) :
    (t₂ - t₁ < c.ttl →
      (cacheGet (cachePut c t₁ p k r) t₂ p k).1 = some r
      ∧ (cacheGet (cachePut c t₁ p k r) t₂ p k).2.stats.hits
          = c.stats.hits + 1
      ∧ (cacheGet (cachePut c t₁ p k r) t₂ p k).2.stats.misses
          = c.stats.misses)
    ∧ (c.ttl ≤ t₂ - t₁ →
      (cacheGet (cachePut c t₁ p k r) t₂ p k).1 = none
      ∧ (cacheGet (cachePut c t₁ p k r) t₂ p k).2.stats.misses
          = c.stats.misses + 1
      ∧ (cacheGet (cachePut c t₁ p k r) t₂ p k).2.stats.hits = c.stats.hits
      ∧ lookupA (cacheGet (cachePut c t₁ p k r) t₂ p k).2.store
          (cacheKeyS p k) = none) := by
  have hlook : lookupA (cachePut c t₁ p k r).store (cacheKeyS p k)
      = some (r, t₁) := lookupA_insertA _ _ _
  have httl : (cachePut c t₁ p k r).ttl = c.ttl := rfl
  constructor
  · intro hage
    have hlt : t₂ - t₁ < (cachePut c t₁ p k r).ttl := by
      rw [httl]; exact hage
    unfold cacheGet
    rw [hlook]
    simp [hlt]
    exact ⟨rfl, rfl⟩
  · intro hage
    have hge : ¬ (t₂ - t₁ < (cachePut c t₁ p k r).ttl) := by
      rw [httl]; omega
    unfold cacheGet
    rw [hlook]
    simp [hge, lookupA_eraseA]
    exact ⟨rfl, rfl⟩

/-- Witness for C5: a fresh cache, a put at instant 0, a hit at instant
10 (TTL 3600) and a stale get at instant 5000. -/
theorem cache_put_get_ttl_witness :
    (0 ≤ 10 ∧ 10 - 0 < freshCache.ttl
      ∧ (cacheGet (cachePut freshCache 0 (strOf "openai") oaiKey1
          cachedSample) 10 (strOf "openai") oaiKey1).1 = some cachedSample)
    ∧ (freshCache.ttl ≤ 5000 - 0
      ∧ (cacheGet (cachePut freshCache 0 (strOf "openai") oaiKey1
          cachedSample) 5000 (strOf "openai") oaiKey1).1 = none) := by
  have h1 := (cache_put_get_ttl freshCache 0 10 (strOf "openai") oaiKey1
    cachedSample (by decide)).1 (by decide)
  have h2 := (cache_put_get_ttl freshCache 0 5000 (strOf "openai") oaiKey1
    cachedSample (by decide)).2 (by decide)
  exact ⟨⟨by decide, by decide, h1.1⟩, by decide, h2.1⟩

/-- C6 counterexample: substrings of the raw secret do appear in the
serialized fingerprint.  A four-character secret appears verbatim as the
`prefix` field (`from_key` takes `key[:4]`, which for `len(key) = 4` is
the whole secret), and for the test suite's longer sample secret the
serialized `prefix` field `sk-a` is itself a substring of the secret. -/
theorem secret_substring_in_fingerprint :
    (fingerprintFromKey (strOf "abcd")).pfx = strOf "abcd"
    ∧ substrOf (strOf "abcd") (fingerprintFromKey (strOf "abcd")).pfx = true
    ∧ (fingerprintFromKey (strOf "sk-abc123xyz")).pfx = strOf "sk-a"
    ∧ substrOf (strOf "sk-a") (strOf "sk-abc123xyz") = true := by
  refine ⟨rfl, by decide, rfl, by decide⟩

/-- C6 amended: the first four and last four characters of a secret
appear in the fingerprint by design, and a secret of at most four
characters appears verbatim as the `prefix` field; what holds is that a
secret of five or more characters never appears in full in either string
field of its fingerprint — both fields are at most four characters, too
short to contain it. -/
theorem fingerprint_hides_full_secret (key : Str) (h : 5 ≤ key.length) :
    substrOf key (fingerprintFromKey key).pfx = false
    ∧ substrOf key (fingerprintFromKey key).suffix = false
    ∧ (fingerprintFromKey key).pfx.length = 4
    ∧ (fingerprintFromKey key).suffix.length = 4 := by
  have h4 : key.length ≥ 4 := by omega
  have hp : (fingerprintFromKey key).pfx = key.take 4 := by
    simp [fingerprintFromKey, h4]
  have hs : (fingerprintFromKey key).suffix = key.drop (key.length - 4) := by
    simp [fingerprintFromKey, h4]
  have hpl : (key.take 4).length = 4 := by
    simp [List.length_take]
    omega
  have hsl : (key.drop (key.length - 4)).length = 4 := by
    simp [List.length_drop]
    omega
  refine ⟨?_, ?_, ?_, ?_⟩
  · rw [hp]
    by_contra hc
    simp only [Bool.not_eq_false] at hc
    have hle := substrOf_length _ _ hc
    rw [hpl] at hle
    omega
  · rw [hs]
    by_contra hc
    simp only [Bool.not_eq_false] at hc
    have hle := substrOf_length _ _ hc
    rw [hsl] at hle
    omega
  · rw [hp, hpl]
  · rw [hs, hsl]

/-- Witness for C6 (amended): a nine-character secret. -/
theorem fingerprint_hides_full_secret_witness :
    5 ≤ (strOf "abcdefghi").length
    ∧ substrOf (strOf "abcdefghi")
        (fingerprintFromKey (strOf "abcdefghi")).pfx = false
    ∧ substrOf (strOf "abcdefghi")
        (fingerprintFromKey (strOf "abcdefghi")).suffix = false := by
  have h := fingerprint_hides_full_secret (strOf "abcdefghi") (by decide)
  exact ⟨by decide, h.1, h.2.1⟩

/-- C3 (spec-modelled): auto-detection considers exactly the providers
whose key-syntax pattern matches the value; it returns a matching
provider of greatest specificity (the literal-prefix length of its
pattern), breaking specificity ties by lexically least provider name;
and when no pattern matches it returns nothing, in which case the
orchestrator's matching loop simply skips the pair — no task, no event,
no error. -/
theorem auto_detect_prefix_specificity :
    (∀ (registry : List ProviderM) (value : Str),
      (detectProviderByKey registry value = none →
        ∀ p ∈ registry, p.keyFormat value = false)
      ∧ (∀ p, detectProviderByKey registry value = some p →
          p ∈ registry ∧ p.keyFormat value = true
          ∧ ∀ q ∈ registry, q.keyFormat value = true →
              literalPrefixLen q.keyFormatText
                  < literalPrefixLen p.keyFormatText
              ∨ (literalPrefixLen q.keyFormatText
                    = literalPrefixLen p.keyFormatText
                 ∧ strLt q.name p.name = false)))
    ∧ (∀ (active : List (Str × ProviderM)) (registry : List ProviderM)
        (var value : Str),
        (∀ a ∈ active, (Prod.snd a).matchesEnvVar var = false) →
        detectProviderByKey registry value = none →
        matchTasks active registry [(var, value)] = ⟨[], [], 0, []⟩) := by
  constructor
  · intro registry value
    constructor
    · intro hnone p hp
      by_contra hfmt
      simp only [Bool.not_eq_false] at hfmt
      have hpc : p ∈ registry.filter (fun p => p.keyFormat value) :=
        List.mem_filter.mpr ⟨hp, hfmt⟩
      unfold detectProviderByKey at hnone
      cases hc : registry.filter (fun p => p.keyFormat value) with
      | nil => rw [hc] at hpc; simp at hpc
      | cons q rest =>
          rw [hc, List.foldl_cons] at hnone
          have hq : detectPick none q = some q := rfl
          rw [hq] at hnone
          rcases detectPick_fold_best rest q with ⟨p', hfold, _, _⟩
          rw [hfold] at hnone
          simp at hnone
    · intro p hsome
      unfold detectProviderByKey at hsome
      cases hc : registry.filter (fun p => p.keyFormat value) with
      | nil => rw [hc] at hsome; simp at hsome
      | cons q rest =>
          rw [hc, List.foldl_cons] at hsome
          have hq : detectPick none q = some q := rfl
          rw [hq] at hsome
          rcases detectPick_fold_best rest q with ⟨p', hfold, hmem, hbest⟩
          rw [hfold] at hsome
          have hpp : p' = p := Option.some.inj hsome
          subst hpp
          have hpc : p' ∈ q :: rest := by
            rcases hmem with rfl | hm
            · exact List.mem_cons_self _ _
            · exact List.mem_cons_of_mem _ hm
          have hpreg := List.mem_filter.mp (hc ▸ hpc)
          refine ⟨hpreg.1, hpreg.2, ?_⟩
          intro q' hq' hfmt'
          have hq'c : q' ∈ q :: rest :=
            hc ▸ List.mem_filter.mpr ⟨hq', hfmt'⟩
          rcases List.mem_cons.mp hq'c with rfl | hm
          · exact hbest q' (Or.inl rfl)
          · exact hbest q' (Or.inr hm)
  · intro active registry var value hmatch hdet
    unfold matchTasks
    simp only [List.foldl_cons, List.foldl_nil]
    unfold matchStep
    by_cases he : ((var, value).1.isEmpty || (var, value).2.isEmpty) = true
    · simp [he]
    · have hfind : active.find? (fun a => a.2.matchesEnvVar (var, value).1)
          = none :=
        List.find?_eq_none.mpr (fun a ha => by simp [hmatch a ha])
      simp [he, hfind, hdet]

/-- Witness for C3: among the real OpenAI (`^sk-`, specificity 3) and
Anthropic (`^sk-ant-`, specificity 7) adapters, both of whose patterns
match an `sk-ant-` secret, detection resolves to `anthropic`; and a pair
whose name matches no active provider and whose value no pattern matches
is skipped outright. -/
theorem auto_detect_prefix_specificity_witness :
    (detectProviderByKey [openaiM, anthropicM] antKey = some anthropicM
      ∧ anthropicM ∈ [openaiM, anthropicM]
      ∧ anthropicM.keyFormat antKey = true
      ∧ openaiM.keyFormat antKey = true
      ∧ literalPrefixLen openaiM.keyFormatText
          < literalPrefixLen anthropicM.keyFormatText)
    ∧ matchTasks [(strOf "openai", openaiM)] [openaiM]
        [(strOf "RANDOM_VAR", strOf "totally-random-string")]
        = ⟨[], [], 0, []⟩ := by
  have h1 := (auto_detect_prefix_specificity.1 [openaiM, anthropicM]
    antKey).2 anthropicM rfl
  have h2 := auto_detect_prefix_specificity.2 [(strOf "openai", openaiM)]
    [openaiM] (strOf "RANDOM_VAR") (strOf "totally-random-string")
    (by decide) rfl
  exact ⟨⟨rfl, h1.1, h1.2.1, by decide, by decide⟩, h2⟩

/-- C4: within one run, (i) whenever a provider's consecutive-failure
counter reaches the threshold 3 at any point of the fresh-results loop,
that provider is in the run's skip set at the end of the loop and a
`provider_bail` audit event has been recorded; (ii) a freshly computed
non-failing result resets its provider's counter to zero; (iii) the
returned summary counts `providers_checked` as the active-provider count
minus the skip set's size (so a skipped provider is excluded), with
`providers_skipped` its size. -/
theorem circuit_breaker_bail :
    (∀ (oracle : Oracle) (now : Nat) (autoVars : List Str) (c : Cache)
        (ts : List OTask) (p : Str),
      (∃ n, FAIL_BAIL_THRESHOLD ≤ countOf
          (processFresh oracle now autoVars (freshInit c) (ts.take n)).counts p) →
        p ∈ (processFresh oracle now autoVars (freshInit c) ts).skipped
        ∧ ∃ d, Ev.providerBail p d
            ∈ (processFresh oracle now autoVars (freshInit c) ts).events)
    ∧ (∀ (oracle : Oracle) (now : Nat) (autoVars : List Str) (st : FreshSt)
        (t : OTask),
        failingStatus (coerceOutcome t.inst t.env_var t.key
          (oracle t.inst.name t.env_var t.key)).status = false →
        countOf (freshStep oracle now autoVars st t).counts t.inst.name = 0)
    ∧ (∀ (registry : List ProviderM) (pa : Option (List Str))
        (envVars : List (Str × Str)) (envPath : Str)
        (environ₀ : List (Str × Str)) (cache₀ : Cache) (oracle : Oracle)
        (now : Nat),
        (auditModel registry pa envVars envPath environ₀ cache₀ oracle
          now).results ≠ [] →
        (auditModel registry pa envVars envPath environ₀ cache₀ oracle
            now).summary.providers_checked
          = (auditModel registry pa envVars envPath environ₀ cache₀ oracle
              now).activeCount
            - (auditModel registry pa envVars envPath environ₀ cache₀
                oracle now).skippedRun.length
        ∧ (auditModel registry pa envVars envPath environ₀ cache₀ oracle
              now).summary.providers_skipped
          = (auditModel registry pa envVars envPath environ₀ cache₀ oracle
              now).skippedRun.length) := by
  refine ⟨?_, ?_, ?_⟩
  · intro oracle now autoVars c ts p ⟨n, hn⟩
    have hbase : ∀ q, FAIL_BAIL_THRESHOLD ≤ countOf (freshInit c).counts q →
        q ∈ (freshInit c).skipped := by
      intro q hq
      simp [freshInit, countOf, lookupA, FAIL_BAIL_THRESHOLD] at hq
    have hA := processFresh_breakerInv oracle now autoVars (ts.take n)
      (freshInit c) hbase p hn
    have hsplit : processFresh oracle now autoVars (freshInit c) ts
        = processFresh oracle now autoVars
            (processFresh oracle now autoVars (freshInit c) (ts.take n))
            (ts.drop n) := by
      rw [← processFresh_append, List.take_append_drop]
    have hfinal : p ∈ (processFresh oracle now autoVars (freshInit c) ts).skipped := by
      rw [hsplit]
      exact processFresh_skipped_mono oracle now autoVars (ts.drop n) _ p hA
    have hbailbase : ∀ q, q ∈ (freshInit c).skipped →
        ∃ d, Ev.providerBail q d ∈ (freshInit c).events := by
      intro q hq
      simp [freshInit] at hq
    exact ⟨hfinal,
      processFresh_bailInv oracle now autoVars ts (freshInit c) hbailbase
        p hfinal⟩
  · intro oracle now autoVars st t hf
    rw [freshStep_counts_eq]
    exact breakerUpd_nonfailing st.counts st.skipped t.inst.name _ hf
  · intro registry pa envVars envPath environ₀ cache₀ oracle now h
    rcases auditModel_main_or registry pa envVars envPath environ₀ cache₀
        oracle now with ⟨active, heq⟩ | heq
    · rw [heq] at h ⊢
      by_cases he : (matchTasks active registry envVars).tasks.isEmpty = true
      · have hemp := auditMain_empty registry active envVars envPath environ₀
          cache₀ oracle now he
        exact absurd hemp.1 h
      · have hef : (matchTasks active registry envVars).tasks.isEmpty = false := by
          simpa using he
        have hff := auditMain_fields registry active envVars envPath environ₀
          cache₀ oracle now hef
        rcases hff with ⟨h1, h2, _, _, h5, h6, _, _⟩
        constructor
        · rw [h1, h5, h6]
        · rw [h2, h5]
    · rw [heq] at h
      exact absurd rfl h

/-- Witness for C4: three consecutive `auth_failed` OpenAI results trip
the breaker (skip set plus `provider_bail` event); a fresh
`network_error` result resets the counter; and in the full audit of the
same three keys the summary's `providers_checked` excludes the bailed
provider. -/
theorem circuit_breaker_bail_witness :
    (strOf "openai" ∈ (processFresh authFailOracle 0 [] (freshInit freshCache)
        bailTasks).skipped
      ∧ ∃ d, Ev.providerBail (strOf "openai") d
          ∈ (processFresh authFailOracle 0 [] (freshInit freshCache)
              bailTasks).events)
    ∧ countOf (freshStep downOracle 0 [] (freshInit freshCache)
        ⟨strOf "OPENAI_API_KEY", oaiKey1, openaiM⟩).counts (strOf "openai") = 0
    ∧ (auditModel [openaiM] none bailEnvVars (strOf "env") [] freshCache
          authFailOracle 0).summary.providers_checked
        = (auditModel [openaiM] none bailEnvVars (strOf "env") [] freshCache
            authFailOracle 0).activeCount
          - (auditModel [openaiM] none bailEnvVars (strOf "env") [] freshCache
              authFailOracle 0).skippedRun.length := by
  refine ⟨circuit_breaker_bail.1 authFailOracle 0 [] freshCache bailTasks
    (strOf "openai") ⟨3, by decide⟩, ?_, ?_⟩
  · exact circuit_breaker_bail.2.1 downOracle 0 []
      (freshInit freshCache) ⟨strOf "OPENAI_API_KEY", oaiKey1, openaiM⟩
      (by decide)
  · exact (circuit_breaker_bail.2.2 [openaiM] none bailEnvVars (strOf "env")
      [] freshCache authFailOracle 0 (by decide)).1

/-- C7 (code bug): the "no matching credentials" early return leaks the
injected environment variables.  With one non-secret variable
`MY_COMPANION_ID=abc` and no matchable credential, `audit` injects the
variable into the (initially empty) process environment, takes the
early return of orchestrator lines 121-127, and returns with the
variable still present — the cleanup of lines 214-215 never runs on
this exit path. -/
theorem injected_env_leak_on_no_tasks :
    (auditModel [openaiM] none [(strOf "MY_COMPANION_ID", strOf "abc")]
        (strOf "env") [] freshCache downOracle 0).results = []
    ∧ (auditModel [openaiM] none [(strOf "MY_COMPANION_ID", strOf "abc")]
        (strOf "env") [] freshCache downOracle 0).configError = false
    ∧ lookupA (auditModel [openaiM] none
        [(strOf "MY_COMPANION_ID", strOf "abc")]
        (strOf "env") [] freshCache downOracle 0).environ
        (strOf "MY_COMPANION_ID") = some (strOf "abc")
    ∧ lookupA ([] : List (Str × Str)) (strOf "MY_COMPANION_ID") = none := by
  refine ⟨rfl, rfl, rfl, rfl⟩

/-- C8: requesting an explicit provider list containing a name absent
from the registry aborts immediately: empty result list, error flag set,
zero summary, zero dispatched tasks (hence no `validate` call), and
environment and cache untouched. -/
theorem unknown_provider_aborts (registry : List ProviderM) (ps : List Str)
    (envVars : List (Str × Str)) (envPath : Str)
    (environ₀ : List (Str × Str)) (cache₀ : Cache) (oracle : Oracle)
    (now : Nat) (badName : Str) (h1 : badName ∈ ps)
    (h2 : ∀ p ∈ registry, p.name ≠ badName) :
    (auditModel registry (some ps) envVars envPath environ₀ cache₀ oracle
        now).results = []
    ∧ (auditModel registry (some ps) envVars envPath environ₀ cache₀ oracle
        now).configError = true
    ∧ (auditModel registry (some ps) envVars envPath environ₀ cache₀ oracle
        now).dispatched = 0
    ∧ (auditModel registry (some ps) envVars envPath environ₀ cache₀ oracle
        now).summary = zeroSummary
    ∧ (auditModel registry (some ps) envVars envPath environ₀ cache₀ oracle
        now).environ = environ₀
    ∧ (auditModel registry (some ps) envVars envPath environ₀ cache₀ oracle
        now).cache = cache₀ := by
  have hne : ps.isEmpty = false := by
    cases ps with
    | nil => simp at h1
    | cons a l => rfl
  have hfind : registry.find? (fun p => p.name = badName) = none :=
    List.find?_eq_none.mpr (fun x hx => by simp [h2 x hx])
  have hany : ps.any
      (fun n => (registry.find? (fun p => p.name = n)).isNone) = true :=
    List.any_eq_true.mpr ⟨badName, h1, by simp [hfind]⟩
  have hout : auditModel registry (some ps) envVars envPath environ₀ cache₀
      oracle now = configErrorOut envPath environ₀ cache₀ := by
    simp [auditModel, hne, hany]
  rw [hout]
  exact ⟨rfl, rfl, rfl, rfl, rfl, rfl⟩

/-- Witness for C8: the OpenAI-only registry, the explicit provider list
`["not_a_real_provider"]`, and a mapping full of valid-looking secrets. -/
theorem unknown_provider_aborts_witness :
    strOf "not_a_real_provider" ∈ [strOf "not_a_real_provider"]
    ∧ (auditModel [openaiM] (some [strOf "not_a_real_provider"]) bailEnvVars
        (strOf "env") [] freshCache authFailOracle 0).results = []
    ∧ (auditModel [openaiM] (some [strOf "not_a_real_provider"]) bailEnvVars
        (strOf "env") [] freshCache authFailOracle 0).configError = true
    ∧ (auditModel [openaiM] (some [strOf "not_a_real_provider"]) bailEnvVars
        (strOf "env") [] freshCache authFailOracle 0).dispatched = 0 := by
  have h := unknown_provider_aborts [openaiM] [strOf "not_a_real_provider"]
    bailEnvVars (strOf "env") [] freshCache authFailOracle 0
    (strOf "not_a_real_provider") (by decide) (by decide)
  exact ⟨by decide, h.1, h.2.1, h.2.2.1⟩

/-- C9 counterexample: audit-log I/O failure is not swallowed.  With a
non-empty buffer, a regular (non-symlink) path, and a log directory that
cannot be created, `flush` propagates the `mkdir` exception to its
caller — and the orchestrator invokes `alog.flush()` with no handler. -/
theorem flush_raises_on_mkdir_failure :
    flushM [Ev.auditStart (strOf "env")] fsNoMkdir
      = Except.error FlushErr.mkdirFailed := rfl

/-- C9 amended: `flush` is silent in exactly two cases — an empty buffer
or a symlinked log path (refused with the buffer discarded).  In every
other case an I/O failure (directory creation, rotation unlink or
rename, open, write) raises, and the exception propagates out of
`flush`; the orchestrator calls `flush` unguarded, so such a failure
aborts the run. -/
theorem flush_error_characterization {α : Type} (entries : List α) (fs : FS) :
    (∃ e, flushM entries fs = Except.error e) ↔
      (entries.isEmpty = false ∧ fs.isSymlink = false
        ∧ (fs.mkdirOk = false
           ∨ ((fs.pathExists && decide (LOG_MAX_SIZE < fs.size)) = true
                ∧ ((fs.rotatedExists && !fs.unlinkOk) = true
                   ∨ fs.renameOk = false))
           ∨ fs.openOk = false ∨ fs.writeOk = false)) := by
  unfold flushM
  split_ifs with h1 h2 h3 h4 h5 h6 h7 h8 h9 h10 <;> simp_all

/-- C10 counterexample: the early "no matching credentials" return
builds its summary as `AuditSummary(0, ..., 0)`, so with the module
cache already carrying five hits and seven misses from earlier runs in
the process, the returned summary reports zeros — not the process-wide
cumulative counters. -/
theorem summary_zeros_despite_prior_counters :
    (auditModel [openaiM] none [] (strOf "env") [] statCache downOracle
        0).summary.cache_hits = 0
    ∧ (auditModel [openaiM] none [] (strOf "env") [] statCache downOracle
        0).summary.cache_misses = 0
    ∧ statCache.stats.hits = 5 ∧ statCache.stats.misses = 7
    ∧ (auditModel [openaiM] none [] (strOf "env") [] statCache downOracle
        0).summary.cache_hits ≠ statCache.stats.hits := by
  refine ⟨rfl, rfl, rfl, rfl, by decide⟩

/-- C10 amended: on every run that reaches the main path (a non-empty
result list), the summary's `cache_hits`/`cache_misses` are the
module-level cache's cumulative counters: the pre-run values carried
over from earlier runs in the process plus this run's hit count and
dispatched (missed) count; the two early returns instead report a zero
summary. -/
theorem summary_cache_counters_cumulative (registry : List ProviderM)
    (pa : Option (List Str)) (envVars : List (Str × Str)) (envPath : Str)
    (environ₀ : List (Str × Str)) (cache₀ : Cache) (oracle : Oracle)
    (now : Nat)
    (h : (auditModel registry pa envVars envPath environ₀ cache₀ oracle
        now).results ≠ []) :
    (auditModel registry pa envVars envPath environ₀ cache₀ oracle
        now).summary.cache_hits
      = cache₀.stats.hits
        + (auditModel registry pa envVars envPath environ₀ cache₀ oracle
            now).cacheHitRun
    ∧ (auditModel registry pa envVars envPath environ₀ cache₀ oracle
        now).summary.cache_misses
      = cache₀.stats.misses
        + (auditModel registry pa envVars envPath environ₀ cache₀ oracle
            now).dispatched := by
  rcases auditModel_main_or registry pa envVars envPath environ₀ cache₀
      oracle now with ⟨active, heq⟩ | heq
  · rw [heq] at h ⊢
    by_cases he : (matchTasks active registry envVars).tasks.isEmpty = true
    · have hemp := auditMain_empty registry active envVars envPath environ₀
        cache₀ oracle now he
      exact absurd hemp.1 h
    · have hef : (matchTasks active registry envVars).tasks.isEmpty
          = false := by simpa using he
      have hff := auditMain_fields registry active envVars envPath environ₀
        cache₀ oracle now hef
      set m := matchTasks active registry envVars with hm
      set pr := m.tasks.foldl (probeStep now m.autoVars)
        (⟨cache₀, [], [], []⟩ : ProbeSt) with hprdef
      set fr := processFresh oracle now m.autoVars
        (⟨pr.cache, [], [], [], []⟩ : FreshSt) pr.uncached with hfrdef
      rcases hff with ⟨_, _, h3, h4, _, _, h7, h8⟩
      rw [h3, h4, h7, h8]
      have e1 : fr.cache.stats = pr.cache.stats := by
        rw [hfrdef]
        exact processFresh_cache_stats oracle now m.autoVars pr.uncached _
      have e2 := probeFold_counts now m.autoVars m.tasks
        (⟨cache₀, [], [], []⟩ : ProbeSt)
      rw [← hprdef] at e2
      simp only [List.length_nil] at e2
      have e2' : pr.cache.stats.hits = cache₀.stats.hits + pr.cached.length
          ∧ pr.cache.stats.misses
            = cache₀.stats.misses + pr.uncached.length := by
        constructor
        · have := e2.1
          omega
        · have := e2.2
          omega
      rw [e1]
      exact e2'
  · rw [heq] at h
    exact absurd rfl h

/-- Witness for C10 (amended): the three-key OpenAI run on a fresh
cache; its summary's counters are the pre-run counters (zero) plus this
run's hit and dispatch counts. -/
theorem summary_cache_counters_cumulative_witness :
    (auditModel [openaiM] none bailEnvVars (strOf "env") [] freshCache
        authFailOracle 0).results ≠ []
    ∧ (auditModel [openaiM] none bailEnvVars (strOf "env") [] freshCache
        authFailOracle 0).summary.cache_misses
      = freshCache.stats.misses
        + (auditModel [openaiM] none bailEnvVars (strOf "env") [] freshCache
            authFailOracle 0).dispatched := by
  have h := summary_cache_counters_cumulative [openaiM] none bailEnvVars
    (strOf "env") [] freshCache authFailOracle 0 (by decide)
  exact ⟨by decide, h.2⟩
